import Mathlib

/-!
Verification of the fuzzy thermal controller in src/thermal.py.

Modelling conventions:
- Real-valued quantities are modelled as rationals.
- Python runtime faults (ZeroDivisionError in membership evaluation, KeyError on
  a missing dictionary key, unpacking a list of the wrong length, popping from an
  empty list, returning an unassigned local variable) are all modelled as
  Option.none.
- Python round(x, 2) is modelled as rounding half up on hundredths; the two
  conventions agree except on exact ties, and no claim below depends on a tie.
- The fields orig_cool, orig_hot, orig_zero and number_of_temps of ThermalControl
  are omitted: they feed only the matplotlib plotting code, which no modelled
  operation reads.
- time.sleep in Plant.apply_change is a real-time effect with no data flow and is
  not modelled.
-/

/-- Rounding a rational to two decimal places, modelling Python round(x, 2). -/
def round2 (q : ℚ) : ℚ := ((round (q * 100) : ℤ) : ℚ) / 100

/-- A fuzzy membership function: a named dictionary from formula names to their
breakpoint lists, as in class MembershipFunction (src/thermal.py lines 27-38). -/
structure MembershipFunction where
  mfName : String
  formulas : List (String × List ℚ)

/-- Dictionary assignment formulas[k] = v: replace the entry when the key is
present, append it otherwise (Python dict update semantics). -/
def dictSet (l : List (String × List ℚ)) (k : String) (v : List ℚ) :
    List (String × List ℚ) :=
  if l.any (fun p => p.1 = k) then l.map (fun p => if p.1 = k then (k, v) else p)
  else l ++ [(k, v)]

/-- MembershipFunction.append (src/thermal.py lines 40-53): raises InvalidPoints
(modelled as Except.error carrying the exception message built in
src/thermal.py line 23) unless 3 <= len(points) <= 4, otherwise stores the
points under the formula name. -/
def MembershipFunction.append (mf : MembershipFunction) (formula_name : String)
    (points : List ℚ) : Except String MembershipFunction :=
  if 3 ≤ points.length ∧ points.length ≤ 4 then
    Except.ok { mf with formulas := dictSet mf.formulas formula_name points }
  else
    Except.error (formula_name ++ " does not contain three or four points")

/-- Membership degree of x for one breakpoint list (src/thermal.py lines 66-71):
max(min((x-a)/(b-a), 1, (d-x)/(d-c)), 0) for four points and
max(min((x-a)/(b-a), (c-x)/(c-b)), 0) for three. A zero divisor raises
ZeroDivisionError in Python, modelled as none; a list of any other length
fails to unpack, also none. -/
def fuzzifyPoints (pts : List ℚ) (x : ℚ) : Option ℚ :=
  match pts with
  | [a, b, c, d] =>
      if b - a = 0 ∨ d - c = 0 then none
      else some (max (min (min ((x - a) / (b - a)) 1) ((d - x) / (d - c))) 0)
  | [a, b, c] =>
      if b - a = 0 ∨ c - b = 0 then none
      else some (max (min ((x - a) / (b - a)) ((c - x) / (c - b))) 0)
  | _ => none

/-- MembershipFunction.fuzzify_from (src/thermal.py lines 55-71): look the
formula up in the dictionary (KeyError modelled as none) and evaluate it. -/
def MembershipFunction.fuzzify_from (mf : MembershipFunction)
    (formula_name : String) (x : ℚ) : Option ℚ :=
  match mf.formulas.lookup formula_name with
  | some pts => fuzzifyPoints pts x
  | none => none

/-- Evaluation of every formula of a dictionary at x, propagating any fault. -/
def fuzzifyList (x : ℚ) : List (String × List ℚ) → Option (List (String × ℚ))
  | [] => some []
  | (k, pts) :: rest =>
      match fuzzifyPoints pts x, fuzzifyList x rest with
      | some d, some l => some ((k, d) :: l)
      | _, _ => none

/-- MembershipFunction.fuzzify_all (src/thermal.py lines 73-83). -/
def MembershipFunction.fuzzify_all (mf : MembershipFunction) (x : ℚ) :
    Option (List (String × ℚ)) :=
  fuzzifyList x mf.formulas

/-- The plant configuration (src/thermal.py lines 86-98). -/
structure Plant where
  skew_rate : ℚ
  change_value : ℚ

/-- The local variables scale and applied_change of Plant.apply_change
(src/thermal.py lines 102-103): scale = min(abs(crisp_output) / 100, 1) and
applied_change = round(change_value * scale, 2). -/
def Plant.appliedChange (p : Plant) (crisp_output : ℚ) : ℚ :=
  round2 (p.change_value * min (|crisp_output| / 100) 1)

/-- Plant.apply_change (src/thermal.py lines 100-115). The branch result is
none exactly when no branch assigns the local variable action, which would be
a NameError at the return statement; both returned components follow the
source: round(environment_temp, 2) and the action string. -/
def Plant.apply_change (p : Plant) (environment_temp : ℚ) (crisp_output : ℚ) :
    Option (ℚ × String) :=
  (if |crisp_output| < 1/100 ∨ p.appliedChange crisp_output < 1/100 then
      some (environment_temp, "no_change")
    else if crisp_output > 0 then
      some (environment_temp + p.appliedChange crisp_output, "heater")
    else if crisp_output < 0 then
      some (environment_temp - p.appliedChange crisp_output, "cooler")
    else none).map (fun r => (round2 r.1, r.2))

/-- The consequent output term fired by each antecedent pair, read off the
literal rule table built in ThermalControl.calculate_change (src/thermal.py
lines 167-183): the first argument of fuzzify_from in each of the nine list
comprehensions. The catch-all case is never reached: calculate_change only
consults the nine listed pairs. -/
def ruleConsequent (error_term error_dot_term : String) : String :=
  if error_term = "positive" then "heater"
  else if error_term = "negative" then "cooler"
  else if error_term = "zero" then
    if error_dot_term = "positive" then "cooler"
    else if error_dot_term = "zero" then "no_change"
    else if error_dot_term = "negative" then "heater"
    else "no_change"
  else "no_change"

/-- The sampled output universe np.linspace(-100, 100, 200) (src/thermal.py
line 146): 200 evenly spaced points from -100 to 100 inclusive. -/
def outputUniverse : List ℚ :=
  (List.range 200).map (fun i : ℕ => (-100 : ℚ) + (i : ℚ) * (200 / 199))

/-- The mutable state of class ThermalControl (src/thermal.py lines 119-154). -/
structure ThermalControl where
  target_temp : ℚ
  environment_temp : ℚ
  current_error : ℚ
  previous_error : ℚ
  change_error : ℚ
  temp_function : MembershipFunction
  error_function : MembershipFunction
  error_dot_function : MembershipFunction
  plant : Plant
  temperature : List ℚ
  aggregation : List ℚ
  temperature_history : List ℚ
  COG : ℚ

/-- ThermalControl constructor (src/thermal.py lines 122-154): current_error is
target minus environment, previous_error starts at 0, change_error is
previous_error minus current_error, temperature is np.linspace(-100, 100, 200),
aggregation starts empty, the history holds 50 copies of the initial
temperature, and COG starts at 0. -/
def ThermalControl.init (command initial_temp : ℚ)
    (temp_function error_function error_dot_function : MembershipFunction)
    (plant : Plant) : ThermalControl :=
  { target_temp := command
    environment_temp := initial_temp
    current_error := command - initial_temp
    previous_error := 0
    change_error := 0 - (command - initial_temp)
    temp_function := temp_function
    error_function := error_function
    error_dot_function := error_dot_function
    plant := plant
    temperature := outputUniverse
    aggregation := []
    temperature_history := List.replicate 50 initial_temp
    COG := 0 }

/-- Option-valued map over a list, propagating any fault, used to model the
list comprehensions of the rule table. -/
def mapOpt {α β : Type} (f : α → Option β) : List α → Option (List β)
  | [] => some []
  | x :: rest =>
      match f x, mapOpt f rest with
      | some d, some l => some (d :: l)
      | _, _ => none

/-- One entry of the rule table (src/thermal.py lines 167-183): the list, over
all output samples x, of min(fuzzify_from(consequent, x), min(edeg, ddeg)). -/
def ThermalControl.ruleCurve (s : ThermalControl)
    (error_term error_dot_term : String) (edeg ddeg : ℚ) : Option (List ℚ) :=
  mapOpt
    (fun x =>
      (s.temp_function.fuzzify_from (ruleConsequent error_term error_dot_term) x).map
        (fun d => min d (min edeg ddeg)))
    s.temperature

/-- The nine antecedent pairs of the rule table, in the order the source zips
the fired curves into the aggregation (src/thermal.py lines 185-189). -/
def rulePairs : List (String × String) :=
  [("positive", "positive"), ("positive", "zero"), ("positive", "negative"),
   ("negative", "positive"), ("negative", "zero"), ("negative", "negative"),
   ("zero", "positive"), ("zero", "zero"), ("zero", "negative")]

/-- One entry of the rule table for the antecedent pair (e, r): index both
degree dictionaries (a missing key is a KeyError, modelled as none) and build
the fired curve. -/
def ThermalControl.ruleEntry (s : ThermalControl)
    (error_degree error_dot_degree : List (String × ℚ)) (e r : String) :
    Option (List ℚ) :=
  match error_degree.lookup e, error_dot_degree.lookup r with
  | some a, some b => s.ruleCurve e r a b
  | _, _ => none

/-- The aggregated output curve of one inference step (src/thermal.py lines
163-189): fuzzify both inputs, build the nine rule curves, and take their
pointwise maximum, folded in the order the source zips them. -/
def ThermalControl.aggregationOf (s : ThermalControl) : Option (List ℚ) :=
  match s.error_function.fuzzify_all s.current_error,
        s.error_dot_function.fuzzify_all s.change_error with
  | some error_degree, some error_dot_degree =>
      match mapOpt (fun p => s.ruleEntry error_degree error_dot_degree p.1 p.2)
              rulePairs with
      | some (c :: rest) =>
          some (rest.foldl (fun acc l => List.zipWith max acc l) c)
      | _ => none
  | _, _ => none

/-- ThermalControl.calculate_change (src/thermal.py lines 156-200): compute the
aggregation, the centroid numerator and denominator; when the denominator is 0
return "no_change" at once (COG and environment_temp untouched, the plant not
invoked); otherwise store the rounded centroid as COG, apply it to the plant,
commit the returned temperature, and return the action. -/
def ThermalControl.calculate_change (s : ThermalControl) :
    Option (ThermalControl × String) :=
  match s.aggregationOf with
  | none => none
  | some aggregation =>
      if aggregation.sum = 0 then
        some ({ s with aggregation := aggregation }, "no_change")
      else
        match s.plant.apply_change s.environment_temp
            (round2 ((List.zipWith (fun a x => a * x) aggregation s.temperature).sum
              / aggregation.sum)) with
        | some r =>
            some ({ s with aggregation := aggregation,
                           COG := round2
                             ((List.zipWith (fun a x => a * x) aggregation s.temperature).sum
                               / aggregation.sum),
                           environment_temp := r.1 }, r.2)
        | none => none

/-- One history update at the list level (src/thermal.py lines 202-205):
pop(0) raises on an empty list (modelled as none), then the newest value is
appended at the end. -/
def recordHistoryList (history : List ℚ) (temp : ℚ) : Option (List ℚ) :=
  match history with
  | [] => none
  | _ :: rest => some (rest ++ [temp])

/-- ThermalControl.record_history (src/thermal.py lines 202-205). -/
def ThermalControl.record_history (s : ThermalControl) : Option ThermalControl :=
  (recordHistoryList s.temperature_history s.environment_temp).map
    (fun h => { s with temperature_history := h })

/-- Iterated record_history at the list level: fold a sequence of recorded
temperatures into the history buffer. -/
def runHistory (history : List ℚ) : List ℚ → Option (List ℚ)
  | [] => some history
  | t :: ts =>
      match recordHistoryList history t with
      | some h => runHistory h ts
      | none => none

/-- ThermalControl.calculate_error (src/thermal.py lines 207-211): the three
assignments run in order, so the new change_error is the old current_error
minus the new current_error. -/
def ThermalControl.calculate_error (s : ThermalControl) : ThermalControl :=
  { s with previous_error := s.current_error
           current_error := s.target_temp - s.environment_temp
           change_error := s.current_error - (s.target_temp - s.environment_temp) }

/-- The error membership function configured in the main block
(src/thermal.py lines 234-237). -/
def errorMF : MembershipFunction :=
  { mfName := "error"
    formulas := [("negative", [-1000, -999, -2, 0]), ("zero", [-2, 0, 2]),
                 ("positive", [0, 2, 999, 1000])] }

/-- The error-rate membership function configured in the main block
(src/thermal.py lines 239-242). -/
def errorDotMF : MembershipFunction :=
  { mfName := "error_dot"
    formulas := [("negative", [-1000, -999, -5, 0]), ("zero", [-50, 0, 5]),
                 ("positive", [0, 5, 999, 1000])] }

/-- The output membership function configured in the main block
(src/thermal.py lines 244-247). -/
def tempOutputMF : MembershipFunction :=
  { mfName := "temp_output"
    formulas := [("cooler", [-1000, -999, -50, 0]), ("no_change", [-50, 0, 50]),
                 ("heater", [0, 50, 999, 1000])] }

/-- The plant configured in the main block with the default skew rate
(src/thermal.py lines 230 and 249). -/
def defaultPlant : Plant := { skew_rate := 2, change_value := 3 }

/-- The controller as assembled in the main block (src/thermal.py line 251). -/
def defaultThermal (command initial_temp : ℚ) : ThermalControl :=
  ThermalControl.init command initial_temp tempOutputMF errorMF errorDotMF defaultPlant

/-- A breakpoint list with a zero-width ramp: adjacent equal breakpoints on the
left or right ramp, the degenerate geometry named in the spec. -/
def hasZeroWidthRamp (pts : List ℚ) : Prop :=
  match pts with
  | [a, b, c, d] => b - a = 0 ∨ d - c = 0
  | [a, b, c] => b - a = 0 ∨ c - b = 0
  | _ => False

/-- A breakpoint list that is non-decreasing with nonzero-width ramps, the
well-formedness condition of claim C6. -/
def properPoints (pts : List ℚ) : Prop :=
  match pts with
  | [a, b, c, d] => a < b ∧ b ≤ c ∧ c < d
  | [a, b, c] => a < b ∧ b < c
  | _ => False

/-- The degree of the output term heater, breakpoints [0, 50, 999, 1000], as a
plain function of the sample point: the value fuzzify_from computes for it. -/
def heaterDeg (x : ℚ) : ℚ :=
  max (min (min ((x - 0) / (50 - 0)) 1) ((1000 - x) / (1000 - 999))) 0

/-- The degree of the output term cooler, breakpoints [-1000, -999, -50, 0], as
a plain function of the sample point. -/
def coolerDeg (x : ℚ) : ℚ :=
  max (min (min ((x - -1000) / (-999 - -1000)) 1) ((0 - x) / (0 - -50))) 0

/-- The degree of the output term no_change, breakpoints [-50, 0, 50], as a
plain function of the sample point. -/
def noChangeDeg (x : ℚ) : ℚ :=
  max (min ((x - -50) / (0 - -50)) ((50 - x) / (50 - 0))) 0

/-- A membership function holding a triangle whose left ramp has zero width,
the degenerate geometry of claim C3. -/
def zeroRampMF : MembershipFunction :=
  { mfName := "degenerate", formulas := [("t", [0, 0, 1])] }

/-- A membership function whose three terms all evaluate to degree 0 at input
0: every term is the triangle [0, 1, 2], whose degree at 0 is 0. -/
def allZeroMF (n1 n2 n3 : String) : MembershipFunction :=
  { mfName := "allzero", formulas := [(n1, [0, 1, 2]), (n2, [0, 1, 2]), (n3, [0, 1, 2])] }

/-- A controller state on which no rule fires anywhere: the single output
sample 0 has degree 0 for every output term, so the aggregation sums to 0.
Used to exhibit the degenerate-aggregation branch of claim C4. -/
def degenThermal : ThermalControl :=
  { target_temp := 25
    environment_temp := 7
    current_error := 0
    previous_error := 0
    change_error := 0
    temp_function := allZeroMF "cooler" "no_change" "heater"
    error_function := allZeroMF "negative" "zero" "positive"
    error_dot_function := allZeroMF "negative" "zero" "positive"
    plant := defaultPlant
    temperature := [0]
    aggregation := []
    temperature_history := List.replicate 50 7
    COG := 3 }

/-! ## General lemmas about the embedding -/

theorem mapOpt_eq_map {α β : Type} (f : α → Option β) (g : α → β) (l : List α)
    (h : ∀ x ∈ l, f x = some (g x)) : mapOpt f l = some (l.map g) := by
  induction l with
  | nil => rfl
  | cons x rest ih =>
      have hx : f x = some (g x) := h x (by simp)
      have hr : mapOpt f rest = some (rest.map g) :=
        ih (fun y hy => h y (by simp [hy]))
      simp [mapOpt, hx, hr]

theorem zipWith_map_same {α β : Type} (h : β → β → β) (f g : α → β) (l : List α) :
    List.zipWith h (l.map f) (l.map g) = l.map (fun x => h (f x) (g x)) := by
  induction l with
  | nil => rfl
  | cons a t ih => simp [ih]

theorem zipWith_map_left {α β : Type} (h : β → α → β) (f : α → β) (l : List α) :
    List.zipWith h (l.map f) l = l.map (fun x => h (f x) x) := by
  induction l with
  | nil => rfl
  | cons a t ih => simp [ih]

theorem sum_map_add (f g : ℚ → ℚ) (l : List ℚ) :
    (l.map (fun x => f x + g x)).sum = (l.map f).sum + (l.map g).sum := by
  induction l with
  | nil => simp
  | cons a t ih => simp [ih]; ring

theorem sum_map_mul_left (c : ℚ) (f : ℚ → ℚ) (l : List ℚ) :
    (l.map (fun x => c * f x)).sum = c * (l.map f).sum := by
  induction l with
  | nil => simp
  | cons a t ih => simp [ih]; ring

theorem sum_map_nonneg (f : ℚ → ℚ) (l : List ℚ) (h : ∀ x ∈ l, 0 ≤ f x) :
    0 ≤ (l.map f).sum := by
  apply List.sum_nonneg
  intro y hy
  obtain ⟨x, hx, rfl⟩ := List.mem_map.mp hy
  exact h x hx

theorem round2_mono {x y : ℚ} (h : x ≤ y) : round2 x ≤ round2 y := by
  unfold round2
  have h1 : round (x * 100) ≤ round (y * 100) := by
    rw [round_eq, round_eq]
    exact Int.floor_le_floor (by linarith)
  have h2 : ((round (x * 100) : ℤ) : ℚ) ≤ ((round (y * 100) : ℤ) : ℚ) := by
    exact_mod_cast h1
  linarith

theorem round2_round2 (q : ℚ) : round2 (round2 q) = round2 q := by
  unfold round2
  rw [div_mul_cancel₀ _ (by norm_num : (100 : ℚ) ≠ 0), round_intCast]

theorem apply_change_deadband (p : Plant) (env crisp : ℚ)
    (h : |crisp| < 1/100 ∨ p.appliedChange crisp < 1/100) :
    p.apply_change env crisp = some (round2 env, "no_change") := by
  unfold Plant.apply_change
  rw [if_pos h]
  rfl

theorem apply_change_heater (p : Plant) (env crisp : ℚ)
    (h : ¬(|crisp| < 1/100 ∨ p.appliedChange crisp < 1/100)) (hc : crisp > 0) :
    p.apply_change env crisp = some (round2 (env + p.appliedChange crisp), "heater") := by
  unfold Plant.apply_change
  rw [if_neg h, if_pos hc]
  rfl

theorem apply_change_cooler (p : Plant) (env crisp : ℚ)
    (h : ¬(|crisp| < 1/100 ∨ p.appliedChange crisp < 1/100)) (hc : ¬(crisp > 0))
    (hc2 : crisp < 0) :
    p.apply_change env crisp = some (round2 (env - p.appliedChange crisp), "cooler") := by
  unfold Plant.apply_change
  rw [if_neg h, if_neg hc, if_pos hc2]
  rfl

theorem fuzzifyPoints_nonneg (pts : List ℚ) (x d : ℚ)
    (h : fuzzifyPoints pts x = some d) : 0 ≤ d := by
  rcases pts with _ | ⟨a, _ | ⟨b, _ | ⟨c, _ | ⟨e, _ | ⟨f, rest⟩⟩⟩⟩⟩ <;>
    simp only [fuzzifyPoints] at h
  · exact absurd h (by simp)
  · exact absurd h (by simp)
  · exact absurd h (by simp)
  · by_cases hc : (b - a = 0 ∨ c - b = 0)
    · rw [if_pos hc] at h
      exact absurd h (by simp)
    · rw [if_neg hc] at h
      obtain rfl := Option.some.inj h
      exact le_max_right _ 0
  · by_cases hc : (b - a = 0 ∨ e - c = 0)
    · rw [if_pos hc] at h
      exact absurd h (by simp)
    · rw [if_neg hc] at h
      obtain rfl := Option.some.inj h
      exact le_max_right _ 0
  · exact absurd h (by simp)

theorem heater_eval (x : ℚ) :
    tempOutputMF.fuzzify_from "heater" x = some (heaterDeg x) := by
  norm_num [tempOutputMF, MembershipFunction.fuzzify_from, List.lookup,
    fuzzifyPoints, heaterDeg, show ("heater" == "cooler") = false from rfl,
    show ("heater" == "no_change") = false from rfl,
    show ("heater" == "heater") = true from rfl]

theorem cooler_eval (x : ℚ) :
    tempOutputMF.fuzzify_from "cooler" x = some (coolerDeg x) := by
  norm_num [tempOutputMF, MembershipFunction.fuzzify_from, List.lookup,
    fuzzifyPoints, coolerDeg, show ("cooler" == "cooler") = true from rfl]

theorem noChange_eval (x : ℚ) :
    tempOutputMF.fuzzify_from "no_change" x = some (noChangeDeg x) := by
  norm_num [tempOutputMF, MembershipFunction.fuzzify_from, List.lookup,
    fuzzifyPoints, noChangeDeg, show ("no_change" == "cooler") = false from rfl,
    show ("no_change" == "no_change") = true from rfl]

theorem errorMF_at_25 :
    errorMF.fuzzify_all 25 = some [("negative", 0), ("zero", 0), ("positive", 1)] := by
  norm_num [errorMF, MembershipFunction.fuzzify_all, fuzzifyList, fuzzifyPoints,
    min_def, max_def]

theorem errorDotMF_at_neg25 :
    errorDotMF.fuzzify_all (-25) =
      some [("negative", 1), ("zero", 1/2), ("positive", 0)] := by
  norm_num [errorDotMF, MembershipFunction.fuzzify_all, fuzzifyList, fuzzifyPoints,
    min_def, max_def]

theorem heaterDeg_nonneg (x : ℚ) : 0 ≤ heaterDeg x := le_max_right _ 0

theorem coolerDeg_nonneg (x : ℚ) : 0 ≤ coolerDeg x := le_max_right _ 0

theorem noChangeDeg_nonneg (x : ℚ) : 0 ≤ noChangeDeg x := le_max_right _ 0

theorem heaterDeg_le_one (x : ℚ) : heaterDeg x ≤ 1 := by
  unfold heaterDeg
  apply max_le
  · exact le_trans (min_le_left _ _) (min_le_right _ 1)
  · norm_num

theorem heaterDeg_of_nonpos {x : ℚ} (hx : x ≤ 0) : heaterDeg x = 0 := by
  unfold heaterDeg
  apply max_eq_right
  apply le_trans (min_le_left _ _)
  apply le_trans (min_le_left _ _)
  norm_num
  linarith

theorem heaterDeg_at_100 : heaterDeg 100 = 1 := by
  norm_num [heaterDeg, min_def, max_def]

theorem ruleCurve_eval (s : ThermalControl) (e r : String) (a b : ℚ) (g : ℚ → ℚ)
    (hg : ∀ x, s.temp_function.fuzzify_from (ruleConsequent e r) x = some (g x)) :
    s.ruleCurve e r a b = some (s.temperature.map (fun x => min (g x) (min a b))) := by
  unfold ThermalControl.ruleCurve
  apply mapOpt_eq_map
  intro x hx
  rw [hg x]
  rfl

theorem defaultThermal_current_error :
    (defaultThermal 25 0).current_error = 25 := by
  norm_num [defaultThermal, ThermalControl.init]

theorem defaultThermal_change_error :
    (defaultThermal 25 0).change_error = -25 := by
  norm_num [defaultThermal, ThermalControl.init]

theorem aggregation_default :
    (defaultThermal 25 0).aggregationOf = some (outputUniverse.map heaterDeg) := by
  have hH : ∀ x, (defaultThermal 25 0).temp_function.fuzzify_from "heater" x
      = some (heaterDeg x) := fun x => heater_eval x
  have hC : ∀ x, (defaultThermal 25 0).temp_function.fuzzify_from "cooler" x
      = some (coolerDeg x) := fun x => cooler_eval x
  have hN : ∀ x, (defaultThermal 25 0).temp_function.fuzzify_from "no_change" x
      = some (noChangeDeg x) := fun x => noChange_eval x
  have hpp := ruleCurve_eval (defaultThermal 25 0) "positive" "positive" 1 0 heaterDeg hH
  have hpz := ruleCurve_eval (defaultThermal 25 0) "positive" "zero" 1 (1/2) heaterDeg hH
  have hpn := ruleCurve_eval (defaultThermal 25 0) "positive" "negative" 1 1 heaterDeg hH
  have hnp := ruleCurve_eval (defaultThermal 25 0) "negative" "positive" 0 0 coolerDeg hC
  have hnz := ruleCurve_eval (defaultThermal 25 0) "negative" "zero" 0 (1/2) coolerDeg hC
  have hnn := ruleCurve_eval (defaultThermal 25 0) "negative" "negative" 0 1 coolerDeg hC
  have hzp := ruleCurve_eval (defaultThermal 25 0) "zero" "positive" 0 0 coolerDeg hC
  have hzz := ruleCurve_eval (defaultThermal 25 0) "zero" "zero" 0 (1/2) noChangeDeg hN
  have hzn := ruleCurve_eval (defaultThermal 25 0) "zero" "negative" 0 1 heaterDeg hH
  unfold ThermalControl.aggregationOf
  rw [show (defaultThermal 25 0).error_function = errorMF from rfl,
      show (defaultThermal 25 0).error_dot_function = errorDotMF from rfl,
      defaultThermal_current_error, defaultThermal_change_error,
      errorMF_at_25, errorDotMF_at_neg25]
  simp only [rulePairs, mapOpt, ThermalControl.ruleEntry, List.lookup,
    show ("positive" == "negative") = false from rfl,
    show ("positive" == "zero") = false from rfl,
    show ("positive" == "positive") = true from rfl,
    show ("zero" == "negative") = false from rfl,
    show ("zero" == "zero") = true from rfl,
    show ("negative" == "negative") = true from rfl,
    hpp, hpz, hpn, hnp, hnz, hnn, hzp, hzz, hzn,
    show (defaultThermal 25 0).temperature = outputUniverse from rfl,
    List.foldl, zipWith_map_same]
  refine congrArg some (List.map_congr_left ?_)
  intro x hx
  have h0 := heaterDeg_nonneg x
  have h1 := heaterDeg_le_one x
  have c0 := coolerDeg_nonneg x
  have n0 := noChangeDeg_nonneg x
  rw [show min (1:ℚ) 0 = 0 by norm_num, show min (1:ℚ) (1/2) = 1/2 by norm_num,
      show min (1:ℚ) 1 = (1:ℚ) by norm_num, show min (0:ℚ) 0 = 0 by norm_num,
      show min (0:ℚ) (1/2) = 0 by norm_num, show min (0:ℚ) 1 = 0 by norm_num]
  simp only [min_eq_right h0, min_eq_right c0, min_eq_right n0, min_eq_left h1]
  rw [max_eq_right (le_min h0 (by norm_num : (0:ℚ) ≤ 1/2)),
      max_eq_right (min_le_left (heaterDeg x) (1/2))]
  simp only [max_eq_left h0]

theorem mem_outputUniverse_100 : (100 : ℚ) ∈ outputUniverse := by
  unfold outputUniverse
  rw [List.mem_map]
  refine ⟨199, by simp, by norm_num⟩

theorem outputUniverse_cases (x : ℚ) (hx : x ∈ outputUniverse) :
    x ≤ 0 ∨ (1:ℚ)/2 < x := by
  unfold outputUniverse at hx
  rw [List.mem_map] at hx
  obtain ⟨i, hi, rfl⟩ := hx
  rcases le_or_lt i 99 with h | h
  · left
    have h2 : (i:ℚ) ≤ 99 := by exact_mod_cast h
    nlinarith
  · right
    have h2 : (100:ℚ) ≤ (i:ℚ) := by exact_mod_cast h
    nlinarith

theorem heater_den_ge_one : 1 ≤ (outputUniverse.map heaterDeg).sum := by
  have hnn : ∀ y ∈ outputUniverse.map heaterDeg, (0:ℚ) ≤ y := by
    intro y hy
    obtain ⟨x, hx, rfl⟩ := List.mem_map.mp hy
    exact heaterDeg_nonneg x
  have hmem : heaterDeg 100 ∈ outputUniverse.map heaterDeg :=
    List.mem_map_of_mem heaterDeg mem_outputUniverse_100
  have h := List.single_le_sum hnn _ hmem
  rw [heaterDeg_at_100] at h
  exact h

theorem heater_den_pos : 0 < (outputUniverse.map heaterDeg).sum :=
  lt_of_lt_of_le one_pos heater_den_ge_one

theorem heater_num_ge_half_den :
    (1/2) * (outputUniverse.map heaterDeg).sum
      ≤ (outputUniverse.map (fun x => heaterDeg x * x)).sum := by
  have hsplit : (outputUniverse.map (fun x => heaterDeg x * x)).sum
      = (outputUniverse.map (fun x => heaterDeg x * (x - 1/2))).sum
        + (outputUniverse.map (fun x => (1/2) * heaterDeg x)).sum := by
    rw [← sum_map_add]
    apply congrArg
    apply List.map_congr_left
    intro x hx
    ring
  have hnn : 0 ≤ (outputUniverse.map (fun x => heaterDeg x * (x - 1/2))).sum := by
    apply sum_map_nonneg
    intro x hx
    rcases outputUniverse_cases x hx with h | h
    · rw [heaterDeg_of_nonpos h, zero_mul]
    · exact mul_nonneg (heaterDeg_nonneg x) (by linarith)
  rw [hsplit, sum_map_mul_left]
  linarith

theorem heater_cog_ge_half :
    (1:ℚ)/2 ≤ round2 ((outputUniverse.map (fun x => heaterDeg x * x)).sum
      / (outputUniverse.map heaterDeg).sum) := by
  have hq : (1:ℚ)/2 ≤ (outputUniverse.map (fun x => heaterDeg x * x)).sum
      / (outputUniverse.map heaterDeg).sum := by
    rw [le_div_iff₀ heater_den_pos]
    calc (1:ℚ)/2 * (outputUniverse.map heaterDeg).sum
        = (1/2) * (outputUniverse.map heaterDeg).sum := by ring
      _ ≤ _ := heater_num_ge_half_den
  have h2 : round2 ((1:ℚ)/2) ≤ round2 ((outputUniverse.map (fun x => heaterDeg x * x)).sum
      / (outputUniverse.map heaterDeg).sum) := round2_mono hq
  have h3 : round2 ((1:ℚ)/2) = 1/2 := by
    norm_num [round2, round_eq]
  linarith

theorem calculate_change_eq (s : ThermalControl) (agg : List ℚ)
    (h : s.aggregationOf = some agg) :
    s.calculate_change =
      (if agg.sum = 0 then
        some ({ s with aggregation := agg }, "no_change")
      else
        match s.plant.apply_change s.environment_temp
            (round2 ((List.zipWith (fun a x => a * x) agg s.temperature).sum
              / agg.sum)) with
        | some r =>
            some ({ s with aggregation := agg,
                           COG := round2
                             ((List.zipWith (fun a x => a * x) agg s.temperature).sum
                               / agg.sum),
                           environment_temp := r.1 }, r.2)
        | none => none) := by
  unfold ThermalControl.calculate_change
  rw [h]

theorem defaultPlant_applied_ge {cog : ℚ} (h : (1:ℚ)/2 ≤ cog) :
    1/100 ≤ defaultPlant.appliedChange cog := by
  unfold Plant.appliedChange defaultPlant
  have habs : |cog| = cog := abs_of_pos (by linarith)
  rw [habs]
  have hscale : (1:ℚ)/200 ≤ min (cog / 100) 1 := by
    have := min_le_min (by linarith : (1:ℚ)/200 ≤ cog / 100) (le_refl (1:ℚ))
    calc (1:ℚ)/200 = min ((1:ℚ)/200) 1 := by norm_num
      _ ≤ min (cog / 100) 1 := this
  have h3 : (3:ℚ) * (1/200) ≤ 3 * min (cog / 100) 1 := by linarith
  have hr := round2_mono h3
  have hv : round2 ((3:ℚ) * (1/200)) = 1/50 := by
    norm_num [round2, round_eq]
  linarith [hr, hv.symm.le]

/-- Claim C2, counterexample: with target 25 and initial temperature 0 the
constructor sets change_error to previous_error minus current_error
= 0 - 25 = -25, not 25 as the claim states. -/
theorem claim_C2_counterexample : (defaultThermal 25 0).change_error ≠ 25 := by
  rw [defaultThermal_change_error]
  norm_num

/-- Claim C2, amended: with target 25, initial temperature 0 and the default
configuration, the first simulation step runs inference with current_error = 25
and change_in_error = -25 (previous_error minus current_error is 0 - 25), and
the resulting action is heater. -/
theorem claim_C2_amended :
    (defaultThermal 25 0).current_error = 25 ∧
    (defaultThermal 25 0).change_error = -25 ∧
    ∃ s2, (defaultThermal 25 0).calculate_change = some (s2, "heater") := by
  refine ⟨defaultThermal_current_error, defaultThermal_change_error, ?_⟩
  rw [calculate_change_eq _ _ aggregation_default,
      show (defaultThermal 25 0).temperature = outputUniverse from rfl,
      zipWith_map_left (fun a x => a * x) heaterDeg outputUniverse,
      if_neg heater_den_pos.ne']
  have hcog := heater_cog_ge_half
  have happ := defaultPlant_applied_ge hcog
  rw [show (defaultThermal 25 0).plant = defaultPlant from rfl,
      show (defaultThermal 25 0).environment_temp = 0 from rfl,
      apply_change_heater defaultPlant 0
        (round2 ((outputUniverse.map (fun x => heaterDeg x * x)).sum
          / (outputUniverse.map heaterDeg).sum)) ?hno ?hpos]
  case hno =>
    push_neg
    constructor
    · rw [abs_of_pos (by linarith)]
      linarith
    · linarith
  case hpos => linarith
  exact ⟨_, rfl⟩

/-- Claim C1, counterexample: the rule matrix of calculate_change maps the
antecedent pair (error = zero, rate = negative) to heater, not to cooler as
the claim and the spec table state. -/
theorem claim_C1_counterexample :
    ruleConsequent "zero" "negative" = "heater" ∧
    ruleConsequent "zero" "negative" ≠ "cooler" := by
  constructor
  · rfl
  · decide

/-- Claim C1, amended: every (error = positive, rate) pair fires heater, every
(error = negative, rate) pair fires cooler, and the zero-error row maps
rate = positive to cooler, rate = zero to no_change and rate = negative to
heater (the reverse of the spec table on the positive and negative rate
columns of the zero row). -/
theorem claim_C1_amended :
    ruleConsequent "positive" "negative" = "heater" ∧
    ruleConsequent "positive" "zero" = "heater" ∧
    ruleConsequent "positive" "positive" = "heater" ∧
    ruleConsequent "negative" "negative" = "cooler" ∧
    ruleConsequent "negative" "zero" = "cooler" ∧
    ruleConsequent "negative" "positive" = "cooler" ∧
    ruleConsequent "zero" "negative" = "heater" ∧
    ruleConsequent "zero" "zero" = "no_change" ∧
    ruleConsequent "zero" "positive" = "cooler" :=
  ⟨rfl, rfl, rfl, rfl, rfl, rfl, rfl, rfl, rfl⟩

/-- Claim C4: when the aggregated curve sums to zero, calculate_change reports
no_change, performs no division (the centroid branch is never reached), and
leaves COG, the environment temperature and the history untouched; the plant
is not invoked, as the unchanged environment temperature shows. -/
theorem claim_C4 (s : ThermalControl) (agg : List ℚ)
    (h : s.aggregationOf = some agg) (hsum : agg.sum = 0) :
    ∃ s2, s.calculate_change = some (s2, "no_change") ∧
      s2.COG = s.COG ∧ s2.environment_temp = s.environment_temp ∧
      s2.temperature_history = s.temperature_history := by
  refine ⟨{ s with aggregation := agg }, ?_, rfl, rfl, rfl⟩
  rw [calculate_change_eq s agg h, if_pos hsum]

theorem runHistory_nonempty (ts : List ℚ) (h : List ℚ) (hne : h ≠ []) :
    runHistory h ts = some ((h ++ ts).drop ts.length) := by
  induction ts generalizing h with
  | nil => simp [runHistory]
  | cons t ts ih =>
      rcases h with _ | ⟨a, rest⟩
      · exact absurd rfl hne
      · rw [runHistory, recordHistoryList]
        dsimp only
        rw [ih (rest ++ [t]) (by simp)]
        simp [List.append_assoc]

/-- Claim C7: the history buffer is created as 50 copies of the initial
temperature; each record step drops the oldest entry (index 0) and appends the
newest, so recording any sequence ts of temperatures into the initial buffer
yields exactly the last 50 entries of (initial buffer ++ ts) in chronological
order, and the length is always 50. -/
theorem claim_C7 (c t0 : ℚ) (mfT mfE mfD : MembershipFunction) (p : Plant)
    (ts : List ℚ) :
    (ThermalControl.init c t0 mfT mfE mfD p).temperature_history
      = List.replicate 50 t0 ∧
    runHistory (List.replicate 50 t0) ts
      = some ((List.replicate 50 t0 ++ ts).drop ts.length) ∧
    (∀ h, runHistory (List.replicate 50 t0) ts = some h → h.length = 50) ∧
    (∀ s : ThermalControl, s.temperature_history.length = 50 →
      ∃ s2, s.record_history = some s2 ∧
        s2.temperature_history
          = s.temperature_history.drop 1 ++ [s.environment_temp] ∧
        s2.temperature_history.length = 50) := by
  refine ⟨rfl, runHistory_nonempty ts _ (by simp), ?_, ?_⟩
  · intro h hh
    rw [runHistory_nonempty ts _ (by simp)] at hh
    obtain rfl := Option.some.inj hh
    simp
    omega
  · intro s hlen
    rcases hhist : s.temperature_history with _ | ⟨a, rest⟩
    · rw [hhist] at hlen
      simp at hlen
    · refine ⟨{ s with temperature_history := rest ++ [s.environment_temp] }, ?_, ?_, ?_⟩
      · unfold ThermalControl.record_history recordHistoryList
        rw [hhist]
        rfl
      · simp [hhist]
      · rw [hhist] at hlen
        simp at hlen ⊢
        omega

/-- Claim C3, counterexample: for the registered term t with breakpoints
[0, 0, 1] (zero-width left ramp), evaluating the membership degree divides by
zero and faults (modelled as none) instead of saturating to 1. -/
theorem claim_C3_counterexample :
    zeroRampMF.fuzzify_from "t" 5 = none ∧
    zeroRampMF.fuzzify_from "t" 5 ≠ some 1 := by
  have h1 : zeroRampMF.fuzzify_from "t" 5 = none := by
    norm_num [zeroRampMF, MembershipFunction.fuzzify_from, List.lookup,
      fuzzifyPoints, show ("t" == "t") = true from rfl]
  refine ⟨h1, ?_⟩
  rw [h1]
  simp

/-- Claim C3, amended: for every registered term with a zero-width ramp,
fuzzify_from performs a division by zero at every input x and faults (modelled
as none); the code has no special case for equal breakpoints and never returns
a saturated degree 1 for the degenerate side. -/
theorem claim_C3_amended (mf : MembershipFunction) (formula_name : String)
    (pts : List ℚ) (x : ℚ) (hlook : mf.formulas.lookup formula_name = some pts)
    (hz : hasZeroWidthRamp pts) :
    mf.fuzzify_from formula_name x = none := by
  unfold MembershipFunction.fuzzify_from
  rw [hlook]
  rcases pts with _ | ⟨a, _ | ⟨b, _ | ⟨c, _ | ⟨e, _ | ⟨f, rest⟩⟩⟩⟩⟩ <;>
    simp only [hasZeroWidthRamp] at hz <;> simp only [fuzzifyPoints]
  · rw [if_pos hz]
  · rw [if_pos hz]

/-- Claim C3, witness: the amended statement applied to the concrete membership
function zeroRampMF at input 7/2. -/
theorem claim_C3_witness :
    zeroRampMF.formulas.lookup "t" = some [0, 0, 1] ∧
    hasZeroWidthRamp [0, 0, 1] ∧
    zeroRampMF.fuzzify_from "t" (7/2) = none := by
  have hl : zeroRampMF.formulas.lookup "t" = some [0, 0, 1] := by
    simp [zeroRampMF, List.lookup, show ("t" == "t") = true from rfl]
  have hz : hasZeroWidthRamp ([0, 0, 1] : List ℚ) := by
    simp only [hasZeroWidthRamp]
    norm_num
  exact ⟨hl, hz, claim_C3_amended zeroRampMF "t" [0, 0, 1] (7/2) hl hz⟩

theorem lookup_dictSet (l : List (String × List ℚ)) (k : String) (v : List ℚ) :
    (dictSet l k v).lookup k = some v := by
  unfold dictSet
  split_ifs with h
  · induction l with
    | nil => simp at h
    | cons p rest ih =>
        by_cases hp : p.1 = k
        · rw [List.map_cons, if_pos hp, List.lookup, beq_self_eq_true]
        · rw [List.map_cons, if_neg hp, List.lookup]
          rw [show (k == p.1) = false from beq_eq_false_iff_ne.mpr (fun hc => hp hc.symm)]
          apply ih
          simp only [List.any_cons, Bool.or_eq_true, decide_eq_true_eq] at h
          rcases h with h | h
          · exact absurd h hp
          · simpa using h
  · induction l with
    | nil => simp [List.lookup]
    | cons p rest ih =>
        have hp : ¬(p.1 = k) := by
          intro hc
          exact h (by simp [List.any_cons, hc])
        rw [List.cons_append, List.lookup]
        rw [show (k == p.1) = false from beq_eq_false_iff_ne.mpr (fun hc => hp hc.symm)]
        apply ih
        intro hc
        apply h
        simp only [List.any_cons, Bool.or_eq_true]
        right
        exact hc

/-- Claim C8: append signals the malformed-membership-function error, with a
message naming the term, exactly when the point count is not 3 or 4; on
success the points are registered under the term name, and looking the term up
afterwards always yields the new points, so re-defining an existing term
overwrites it (last write wins). -/
theorem claim_C8 (mf : MembershipFunction) (formula_name : String)
    (points : List ℚ) :
    (¬(3 ≤ points.length ∧ points.length ≤ 4) →
      mf.append formula_name points
        = Except.error (formula_name ++ " does not contain three or four points")) ∧
    ((3 ≤ points.length ∧ points.length ≤ 4) →
      ∃ mf2, mf.append formula_name points = Except.ok mf2 ∧
        mf2.formulas.lookup formula_name = some points) := by
  constructor
  · intro h
    unfold MembershipFunction.append
    rw [if_neg h]
  · intro h
    refine ⟨{ mf with formulas := dictSet mf.formulas formula_name points }, ?_, ?_⟩
    · unfold MembershipFunction.append
      rw [if_pos h]
    · exact lookup_dictSet mf.formulas formula_name points

/-- Claim C8, witness: a length-5 list is rejected with the message naming the
term, and a length-3 list is accepted and registered, overwriting the previous
definition of the same term. -/
theorem claim_C8_witness :
    (zeroRampMF.append "t" [1, 2, 3, 4, 5]
      = Except.error ("t" ++ " does not contain three or four points")) ∧
    (∃ mf2, zeroRampMF.append "t" [1, 2, 3] = Except.ok mf2 ∧
      mf2.formulas.lookup "t" = some [1, 2, 3]) :=
  ⟨(claim_C8 zeroRampMF "t" [1, 2, 3, 4, 5]).1 (by norm_num),
   (claim_C8 zeroRampMF "t" [1, 2, 3]).2 (by norm_num)⟩

theorem fuzzifyPoints_proper (pts : List ℚ) (x : ℚ) (hp : properPoints pts) :
    ∃ d, fuzzifyPoints pts x = some d ∧ 0 ≤ d ∧ d ≤ 1 := by
  rcases pts with _ | ⟨a, _ | ⟨b, _ | ⟨c, _ | ⟨e, _ | ⟨f, rest⟩⟩⟩⟩⟩ <;>
    simp only [properPoints] at hp
  · obtain ⟨hab, hbc⟩ := hp
    have hcond : ¬(b - a = 0 ∨ c - b = 0) := by rintro (hc | hc) <;> linarith
    refine ⟨max (min ((x - a) / (b - a)) ((c - x) / (c - b))) 0, ?_, ?_, ?_⟩
    · simp only [fuzzifyPoints]
      rw [if_neg hcond]
    · exact le_max_right _ 0
    · apply max_le _ zero_le_one
      rcases le_total x b with hx | hx
      · apply le_trans (min_le_left _ _)
        rw [div_le_one (by linarith : (0:ℚ) < b - a)]
        linarith
      · apply le_trans (min_le_right _ _)
        rw [div_le_one (by linarith : (0:ℚ) < c - b)]
        linarith
  · obtain ⟨hab, hbc, hce⟩ := hp
    have hcond : ¬(b - a = 0 ∨ e - c = 0) := by rintro (hc | hc) <;> linarith
    refine ⟨max (min (min ((x - a) / (b - a)) 1) ((e - x) / (e - c))) 0, ?_, ?_, ?_⟩
    · simp only [fuzzifyPoints]
      rw [if_neg hcond]
    · exact le_max_right _ 0
    · apply max_le _ zero_le_one
      exact le_trans (min_le_left _ _) (min_le_right _ 1)

/-- Claim C6: for every registered term whose breakpoints are non-decreasing
with nonzero-width ramps, the membership degree returned by fuzzify_from is
defined and lies in the closed interval from 0 to 1, for every input x. -/
theorem claim_C6 (mf : MembershipFunction) (formula_name : String)
    (pts : List ℚ) (x : ℚ) (hlook : mf.formulas.lookup formula_name = some pts)
    (hp : properPoints pts) :
    ∃ d, mf.fuzzify_from formula_name x = some d ∧ 0 ≤ d ∧ d ≤ 1 := by
  unfold MembershipFunction.fuzzify_from
  rw [hlook]
  exact fuzzifyPoints_proper pts x hp

/-- Claim C6, witness: the claim applied to the term positive of the default
error variable, breakpoints [0, 2, 999, 1000], at input 25. -/
theorem claim_C6_witness :
    errorMF.formulas.lookup "positive" = some [0, 2, 999, 1000] ∧
    properPoints ([0, 2, 999, 1000] : List ℚ) ∧
    ∃ d, errorMF.fuzzify_from "positive" 25 = some d ∧ 0 ≤ d ∧ d ≤ 1 := by
  have hl : errorMF.formulas.lookup "positive" = some [0, 2, 999, 1000] := by
    simp [errorMF, List.lookup, show ("positive" == "negative") = false from rfl,
      show ("positive" == "zero") = false from rfl, beq_self_eq_true]
  have hp : properPoints ([0, 2, 999, 1000] : List ℚ) := by
    simp only [properPoints]
    norm_num
  exact ⟨hl, hp, claim_C6 errorMF "positive" _ 25 hl hp⟩

/-- Claim C5, counterexample: in the dead band the returned temperature is
round(environment_temp, 2), which differs from the input temperature 1/200
(0.005): the temperature is not left exactly unchanged. -/
theorem claim_C5_counterexample :
    defaultPlant.apply_change (1/200) 0 = some (1/100, "no_change") ∧
    ((1/100 : ℚ) ≠ 1/200) := by
  constructor
  · rw [apply_change_deadband defaultPlant (1/200) 0 (Or.inl (by norm_num))]
    norm_num [round2, round_eq]
  · norm_num

/-- Claim C5, amended: whenever the crisp output is inside the dead band
(its magnitude below 0.01, or the scaled rounded applied change below 0.01),
apply_change returns the action no_change and the environment temperature
rounded to 2 decimals, regardless of the sign of the crisp output; the
temperature is exactly unchanged whenever it is already a two-decimal value. -/
theorem claim_C5_amended (p : Plant) (env crisp : ℚ)
    (h : |crisp| < 1/100 ∨ p.appliedChange crisp < 1/100) :
    p.apply_change env crisp = some (round2 env, "no_change") ∧
    (round2 env = env → p.apply_change env crisp = some (env, "no_change")) := by
  have h1 := apply_change_deadband p env crisp h
  refine ⟨h1, fun he => ?_⟩
  rw [h1, he]

/-- Claim C5, witness: the amended statement applied to the default plant at
environment temperature 7 and crisp output 0. -/
theorem claim_C5_witness :
    (|(0:ℚ)| < 1/100 ∨ defaultPlant.appliedChange 0 < 1/100) ∧
    round2 7 = 7 ∧
    defaultPlant.apply_change 7 0 = some (7, "no_change") := by
  have hc : |(0:ℚ)| < 1/100 ∨ defaultPlant.appliedChange 0 < 1/100 :=
    Or.inl (by norm_num)
  have h7 : round2 (7:ℚ) = 7 := by norm_num [round2, round_eq]
  exact ⟨hc, h7, (claim_C5_amended defaultPlant 7 0 hc).2 h7⟩

theorem apply_change_action (p : Plant) (env crisp t : ℚ) (a : String)
    (h : p.apply_change env crisp = some (t, a)) :
    a = "heater" ∨ a = "cooler" ∨ a = "no_change" := by
  unfold Plant.apply_change at h
  split_ifs at h with h1 h2 h3
  · simp at h
    exact Or.inr (Or.inr h.2.symm)
  · simp at h
    exact Or.inl h.2.symm
  · simp at h
    exact Or.inr (Or.inl h.2.symm)
  · simp at h

theorem apply_change_total (p : Plant) (env crisp : ℚ) :
    ∃ t a, p.apply_change env crisp = some (t, a) := by
  by_cases h : (|crisp| < 1/100 ∨ p.appliedChange crisp < 1/100)
  · exact ⟨_, _, apply_change_deadband p env crisp h⟩
  · rcases lt_trichotomy crisp 0 with hc | rfl | hc
    · exact ⟨_, _, apply_change_cooler p env crisp h (not_lt.mpr hc.le) hc⟩
    · exact absurd (Or.inl (by norm_num)) h
    · exact ⟨_, _, apply_change_heater p env crisp h hc⟩

/-- Claim C9: apply_change always returns a value (it is a total deterministic
function of the plant configuration, the environment temperature and the crisp
output), the returned temperature is a fixed point of rounding to 2 decimals,
and in the dead-band branch it equals the input temperature rounded to 2
decimals with action no_change. -/
theorem claim_C9 (p : Plant) (env crisp : ℚ) :
    ∃ t a, p.apply_change env crisp = some (t, a) ∧ round2 t = t ∧
      ((|crisp| < 1/100 ∨ p.appliedChange crisp < 1/100) →
        t = round2 env ∧ a = "no_change") := by
  by_cases h : (|crisp| < 1/100 ∨ p.appliedChange crisp < 1/100)
  · exact ⟨round2 env, "no_change", apply_change_deadband p env crisp h,
      round2_round2 env, fun _ => ⟨rfl, rfl⟩⟩
  · rcases lt_trichotomy crisp 0 with hc | rfl | hc
    · exact ⟨_, "cooler", apply_change_cooler p env crisp h (not_lt.mpr hc.le) hc,
        round2_round2 _, fun hcon => absurd hcon h⟩
    · exact absurd (Or.inl (by norm_num)) h
    · exact ⟨_, "heater", apply_change_heater p env crisp h hc,
        round2_round2 _, fun hcon => absurd hcon h⟩

/-- Claim C9, witness: the claim applied to the default plant at environment
temperature 5 and crisp output 0. -/
theorem claim_C9_witness :
    ∃ t a, defaultPlant.apply_change 5 0 = some (t, a) ∧ round2 t = t ∧
      ((|(0:ℚ)| < 1/100 ∨ defaultPlant.appliedChange 0 < 1/100) →
        t = round2 5 ∧ a = "no_change") :=
  claim_C9 defaultPlant 5 0

/-- Claim C10, counterexample: the crisp output 1/100 has magnitude at least
0.01, yet the default plant takes the dead-band branch (the scaled rounded
applied change is 0, below 0.01) and returns no_change: neither the heater nor
the cooler branch is taken. -/
theorem claim_C10_counterexample :
    (1/100 ≤ |(1/100 : ℚ)|) ∧
    defaultPlant.apply_change 0 (1/100) = some (0, "no_change") := by
  have habs : |(1/100 : ℚ)| = 1/100 := abs_of_pos (by norm_num)
  constructor
  · rw [habs]
  · have happ : defaultPlant.appliedChange (1/100) < 1/100 := by
      norm_num [Plant.appliedChange, defaultPlant, round2, round_eq, min_def, habs]
    rw [apply_change_deadband defaultPlant 0 (1/100) (Or.inr happ)]
    norm_num [round2, round_eq]

/-- Claim C10, amended: for every crisp output of magnitude at least 0.01 the
branch structure of apply_change always assigns the action (the result is
defined, never a NameError), with the action one of heater, cooler, no_change;
exactly one of the heater and cooler branches is taken whenever additionally
the scaled rounded applied change is at least 0.01; and the action returned by
a full calculate_change step is always one of heater, cooler, no_change. -/
theorem claim_C10_amended (p : Plant) (env crisp : ℚ) (h : 1/100 ≤ |crisp|) :
    (∃ t a, p.apply_change env crisp = some (t, a) ∧
      (a = "heater" ∨ a = "cooler" ∨ a = "no_change")) ∧
    (1/100 ≤ p.appliedChange crisp →
      (0 < crisp ∧ ∃ t, p.apply_change env crisp = some (t, "heater")) ∨
      (crisp < 0 ∧ ∃ t, p.apply_change env crisp = some (t, "cooler"))) ∧
    (∀ (s s2 : ThermalControl) (a : String),
      s.calculate_change = some (s2, a) →
      a = "heater" ∨ a = "cooler" ∨ a = "no_change") := by
  refine ⟨?_, ?_, ?_⟩
  · obtain ⟨t, a, ht⟩ := apply_change_total p env crisp
    exact ⟨t, a, ht, apply_change_action p env crisp t a ht⟩
  · intro happ
    have hno : ¬(|crisp| < 1/100 ∨ p.appliedChange crisp < 1/100) := by
      rintro (hc | hc) <;> linarith
    rcases lt_trichotomy crisp 0 with hc | rfl | hc
    · exact Or.inr ⟨hc, _, apply_change_cooler p env crisp hno (not_lt.mpr hc.le) hc⟩
    · exact absurd h (by norm_num)
    · exact Or.inl ⟨hc, _, apply_change_heater p env crisp hno hc⟩
  · intro s s2 a hcc
    unfold ThermalControl.calculate_change at hcc
    split at hcc
    · exact absurd hcc (by simp)
    · split_ifs at hcc with hden
      · simp at hcc
        exact Or.inr (Or.inr hcc.2.symm)
      · split at hcc
        · next r heq =>
            simp at hcc
            obtain ⟨-, rfl⟩ := hcc
            exact apply_change_action _ _ _ r.1 r.2 (by rw [heq])
        · exact absurd hcc (by simp)

/-- Claim C10, witness: the amended statement applied to the default plant at
environment temperature 0 and crisp output 50, where the applied change is
3/2 and the heater branch is taken. -/
theorem claim_C10_witness :
    (1/100 ≤ |(50 : ℚ)|) ∧ 1/100 ≤ defaultPlant.appliedChange 50 ∧
    ((0 < (50:ℚ) ∧ ∃ t, defaultPlant.apply_change 0 50 = some (t, "heater")) ∨
      ((50:ℚ) < 0 ∧ ∃ t, defaultPlant.apply_change 0 50 = some (t, "cooler"))) := by
  have h1 : (1:ℚ)/100 ≤ |(50 : ℚ)| := by norm_num
  have h2 : 1/100 ≤ defaultPlant.appliedChange 50 := by
    norm_num [Plant.appliedChange, defaultPlant, round2, round_eq, min_def]
  exact ⟨h1, h2, (claim_C10_amended defaultPlant 0 50 h1).2.1 h2⟩

/-- Claim C4, witness: the claim applied to the concrete state degenThermal,
whose aggregation is the all-zero curve over the single sample 0, so the
denominator is 0 and the step reports no_change leaving COG, the temperature
and the history unchanged. -/
theorem claim_C4_witness :
    degenThermal.aggregationOf = some [0] ∧ ([0] : List ℚ).sum = 0 ∧
    ∃ s2, degenThermal.calculate_change = some (s2, "no_change") ∧
      s2.COG = degenThermal.COG ∧
      s2.environment_temp = degenThermal.environment_temp ∧
      s2.temperature_history = degenThermal.temperature_history := by
  have hdeg : fuzzifyPoints [0, 1, 2] 0 = some 0 := by
    norm_num [fuzzifyPoints, min_def, max_def]
  have hall : ∀ n1 n2 n3 : String,
      (allZeroMF n1 n2 n3).fuzzify_all 0 = some [(n1, 0), (n2, 0), (n3, 0)] := by
    intro n1 n2 n3
    simp [allZeroMF, MembershipFunction.fuzzify_all, fuzzifyList, hdeg]
  have hfrom : ∀ cons : String,
      (cons = "heater" ∨ cons = "cooler" ∨ cons = "no_change") →
      degenThermal.temp_function.fuzzify_from cons 0 = some 0 := by
    intro cons hc
    rcases hc with hc | hc | hc <;> subst hc <;>
      simp [degenThermal, allZeroMF, MembershipFunction.fuzzify_from,
        List.lookup, hdeg, beq_self_eq_true,
        show ("heater" == "cooler") = false from rfl,
        show ("heater" == "no_change") = false from rfl,
        show ("no_change" == "cooler") = false from rfl]
  have hcurve : ∀ e r : String,
      (ruleConsequent e r = "heater" ∨ ruleConsequent e r = "cooler" ∨
        ruleConsequent e r = "no_change") →
      degenThermal.ruleCurve e r 0 0 = some [0] := by
    intro e r hc
    unfold ThermalControl.ruleCurve
    have hmem : ∀ x ∈ degenThermal.temperature,
        ((degenThermal.temp_function.fuzzify_from (ruleConsequent e r) x).map
          (fun d => min d (min 0 0))) = some ((fun _ => (0:ℚ)) x) := by
      intro x hx
      have hx0 : x = 0 := by simpa [degenThermal] using hx
      subst hx0
      rw [hfrom (ruleConsequent e r) hc]
      norm_num
    rw [mapOpt_eq_map _ _ _ hmem]
    rfl
  have h1 := hcurve "positive" "positive" (Or.inl rfl)
  have h2 := hcurve "positive" "zero" (Or.inl rfl)
  have h3 := hcurve "positive" "negative" (Or.inl rfl)
  have h4 := hcurve "negative" "positive" (Or.inr (Or.inl rfl))
  have h5 := hcurve "negative" "zero" (Or.inr (Or.inl rfl))
  have h6 := hcurve "negative" "negative" (Or.inr (Or.inl rfl))
  have h7 := hcurve "zero" "positive" (Or.inr (Or.inl rfl))
  have h8 := hcurve "zero" "zero" (Or.inr (Or.inr rfl))
  have h9 := hcurve "zero" "negative" (Or.inl rfl)
  have hagg : degenThermal.aggregationOf = some [0] := by
    unfold ThermalControl.aggregationOf
    rw [show degenThermal.error_function = allZeroMF "negative" "zero" "positive"
          from rfl,
        show degenThermal.error_dot_function = allZeroMF "negative" "zero" "positive"
          from rfl,
        show degenThermal.current_error = 0 from rfl,
        show degenThermal.change_error = 0 from rfl,
        hall "negative" "zero" "positive"]
    simp only [rulePairs, mapOpt, ThermalControl.ruleEntry, List.lookup,
      beq_self_eq_true,
      show ("positive" == "negative") = false from rfl,
      show ("positive" == "zero") = false from rfl,
      show ("zero" == "negative") = false from rfl,
      h1, h2, h3, h4, h5, h6, h7, h8, h9, List.foldl]
    norm_num
  exact ⟨hagg, by simp, claim_C4 degenThermal [0] hagg (by simp)⟩

/-- Claim C7, witness: the claim applied to initial temperature 0 with two
recorded values, and the per-step statement applied to the concrete state
degenThermal, whose history holds 50 copies of 7. -/
theorem claim_C7_witness :
    runHistory (List.replicate 50 (0:ℚ)) [1, 2]
      = some ((List.replicate 50 (0:ℚ) ++ [1, 2]).drop 2) ∧
    ((List.replicate 50 (0:ℚ) ++ [1, 2]).drop 2).length = 50 ∧
    ∃ s2, degenThermal.record_history = some s2 ∧
      s2.temperature_history
        = degenThermal.temperature_history.drop 1
          ++ [degenThermal.environment_temp] ∧
      s2.temperature_history.length = 50 := by
  have h := claim_C7 25 0 errorMF errorMF errorMF defaultPlant [1, 2]
  exact ⟨h.2.1, h.2.2.1 _ h.2.1,
    h.2.2.2 degenThermal (by simp [degenThermal])⟩

theorem errorMF_built :
    ((MembershipFunction.mk "error" []).append "negative" [-1000, -999, -2, 0]).bind
      (fun m => (m.append "zero" [-2, 0, 2]).bind
        (fun m2 => m2.append "positive" [0, 2, 999, 1000])) = Except.ok errorMF := by
  simp [MembershipFunction.append, dictSet, Except.bind, errorMF]

theorem errorDotMF_built :
    ((MembershipFunction.mk "error_dot" []).append "negative" [-1000, -999, -5, 0]).bind
      (fun m => (m.append "zero" [-50, 0, 5]).bind
        (fun m2 => m2.append "positive" [0, 5, 999, 1000])) = Except.ok errorDotMF := by
  simp [MembershipFunction.append, dictSet, Except.bind, errorDotMF]

theorem tempOutputMF_built :
    ((MembershipFunction.mk "temp_output" []).append "cooler" [-1000, -999, -50, 0]).bind
      (fun m => (m.append "no_change" [-50, 0, 50]).bind
        (fun m2 => m2.append "heater" [0, 50, 999, 1000])) = Except.ok tempOutputMF := by
  simp [MembershipFunction.append, dictSet, Except.bind, tempOutputMF]
